import Mathlib

/-!
Formal model of the backtest engine in `src/index.js` of the
cointop10-anthropic-proxy repository.

JavaScript numbers are modelled as rationals (`ℚ`); `undefined`/missing
values and non-numeric values (whose `parseFloat` is `NaN`) are modelled
as `none` of an `Option` type.  JavaScript `x || d` (falsy-default) is
modelled by dedicated `jsOr`-style helpers: `none`, `0`, `false` and `""`
are falsy.  `Number.prototype.toFixed(n)` followed by `parseFloat` is
modelled by `roundTo n` (round half up at the n-th decimal digit).
Strategy execution (the `eval` of untrusted strategy source plus the
`runStrategy` call) is modelled as an oracle input, since the strategy
body is arbitrary foreign code.
-/

/-- A JavaScript value as it appears in a settings object:
`null`, a number, a boolean or a string.  `undefined` is represented by
absence (`Option`/missing key), not by a constructor. -/
inductive JSVal where
  | null : JSVal
  | num (q : ℚ) : JSVal
  | bool (b : Bool) : JSVal
  | str (s : String) : JSVal
deriving DecidableEq

/-- JavaScript truthiness of a defined value (NaN is not representable in
the rational model). -/
def JSVal.truthy : JSVal → Bool
  | .null => false
  | .num q => q != 0
  | .bool b => b
  | .str s => s != ""

/-- A JavaScript object, as an association list; `lookup` takes the first
binding, and a missing key models `undefined`. -/
abbrev JSObj := List (String × JSVal)

/-- Property access `o.k`: `none` models `undefined`. -/
def jget (o : JSObj) (k : String) : Option JSVal := List.lookup k o

/-- JavaScript `v || d` where `v` is a (possibly undefined) property. -/
def jsOr (v : Option JSVal) (d : JSVal) : JSVal :=
  match v with
  | some x => if x.truthy then x else d
  | none => d

/-- Truthiness of a possibly-undefined number. -/
def qTruthy : Option ℚ → Bool
  | none => false
  | some q => q != 0

/-- Truthiness of a possibly-undefined string. -/
def strOptTruthy : Option String → Bool
  | none => false
  | some s => s != ""

/-- JavaScript `x || d` on a possibly-undefined number. -/
def jsNumOr (x : Option ℚ) (d : ℚ) : ℚ := if qTruthy x then x.getD 0 else d

/-- JavaScript `x || d` on a possibly-undefined number with a general
default value. -/
def jsNumOrVal (x : Option ℚ) (d : JSVal) : JSVal :=
  if qTruthy x then .num (x.getD 0) else d

/-- Does the character list `pat` occur as an initial segment of `l`? -/
def chListStarts : List Char → List Char → Bool
  | [], _ => true
  | _ :: _, [] => false
  | p :: ps, c :: cs => p == c && chListStarts ps cs

/-- Does the character list `pat` occur contiguously anywhere in `l`? -/
def chListHas (pat : List Char) : List Char → Bool
  | [] => chListStarts pat []
  | c :: cs => chListStarts pat (c :: cs) || chListHas pat cs

/-- JavaScript `s.includes(pat)` (contiguous substring test). -/
def strContains (s pat : String) : Bool := chListHas pat.data s.data

/-- JavaScript `String.prototype.toUpperCase` on one character
(ASCII letters; the strategy contract only uses LONG/SHORT sides). -/
def upChar (c : Char) : Char :=
  if 97 ≤ c.toNat ∧ c.toNat ≤ 122 then Char.ofNat (c.toNat - 32) else c

/-- JavaScript `s.toUpperCase()`. -/
def jsToUpper (s : String) : String := String.mk (s.data.map upChar)

/-- Floor of a rational as an integer (used to model `Math.floor` and
decimal rounding). -/
def qfloor (x : ℚ) : ℤ := Int.fdiv x.num x.den

/-- Model of `parseFloat(x.toFixed(n))`: round half up at the n-th
decimal digit. -/
def roundTo (n : ℕ) (x : ℚ) : ℚ := (qfloor (x * 10 ^ n + 1 / 2) : ℚ) / 10 ^ n

/-- A trade record as produced by a strategy and reshaped by the result
normalizer (`src/index.js` lines 1470-1494).  Every field may be absent;
`coin_size`/`usdt_size` are absent on raw strategy output and defined on
normalized output. -/
structure Trade where
  entry_time : Option ℚ := none
  entry_price : Option ℚ := none
  exit_time : Option ℚ := none
  exit_price : Option ℚ := none
  side : Option String := none
  pnl : Option ℚ := none
  fee : Option ℚ := none
  size : Option ℚ := none
  duration : Option ℚ := none
  order_type : Option String := none
  balance : Option ℚ := none
  coin_size : Option ℚ := none
  usdt_size : Option ℚ := none
deriving DecidableEq

/-- The trade filter of the result normalizer:
`.filter(t => t.balance && t.balance > 0)`. -/
def keepTrade (t : Trade) : Bool :=
  qTruthy t.balance && decide (0 < t.balance.getD 0)

/-- `const coinSize = t.size || 0` (line 1475). -/
def coinSizeOf (t : Trade) : ℚ := if qTruthy t.size then t.size.getD 0 else 0

/-- `const usdtSize = t.entry_price && coinSize ? coinSize * t.entry_price : 0`
(line 1476). -/
def usdtSizeOf (t : Trade) : ℚ :=
  if qTruthy t.entry_price && decide (coinSizeOf t ≠ 0) then coinSizeOf t * t.entry_price.getD 0
  else 0

/-- `let orderType = t.order_type || 'MARKET'` (line 1479). -/
def jsOrderType0 (ot : Option String) : String :=
  if strOptTruthy ot then ot.getD "" else "MARKET"

/-- `const side = t.side ? t.side.toUpperCase() : null` (line 1480). -/
def jsSideU (sd : Option String) : Option String :=
  if strOptTruthy sd then some (jsToUpper (sd.getD "")) else none

/-- Lines 1482-1485: when the side is defined and the order type mentions
no BUY/SELL direction yet, put the direction word of the side in front. -/
def jsOrderType1 (sd : Option String) (ot : String) : String :=
  if sd.isSome && !(strContains ot "BUY") && !(strContains ot "SELL") then
    (if sd = some "LONG" then "BUY" else "SELL") ++ " " ++ ot
  else ot

/-- The per-trade map of the result normalizer (`src/index.js` lines
1473-1493): compute `coin_size` (size rounded to 8 decimals),
`usdt_size` (size × entry price rounded to 2 decimals), uppercase the
side, and give `order_type` a BUY/SELL direction from `side` when it has
none. -/
def normalizeTrade (t : Trade) : Trade :=
  { t with
    coin_size := some (if coinSizeOf t ≠ 0 then roundTo 8 (coinSizeOf t) else 0)
    usdt_size := some (if usdtSizeOf t ≠ 0 then roundTo 2 (usdtSizeOf t) else 0)
    order_type := some (jsOrderType1 (jsSideU t.side) (jsOrderType0 t.order_type))
    side := jsSideU t.side }

/-- The trades part of `normalizedResult`: filter out zero/absent-balance
trades, then normalize each remaining trade. -/
def normalizeTrades (ts : List Trade) : List Trade :=
  (ts.filter keepTrade).map normalizeTrade

/-- One equity-curve point (opaque to the normalizer, which passes the
curve through unchanged). -/
structure EquityPoint where
  timestamp : Option ℚ := none
  balance : Option ℚ := none
  equity : Option ℚ := none
  drawdown : Option ℚ := none
deriving DecidableEq

/-- The raw object returned by `runStrategy`.  A `none` field is an
absent or non-numeric value (its `parseFloat` would be NaN). -/
structure RawResult where
  trades : Option (List Trade) := none
  equity_curve : Option (List EquityPoint) := none
  roi : Option ℚ := none
  mdd : Option ℚ := none
  win_rate : Option ℚ := none
  total_trades : Option ℚ := none
  long_trades : Option ℚ := none
  short_trades : Option ℚ := none
  winning_trades : Option ℚ := none
  losing_trades : Option ℚ := none
  max_profit : Option ℚ := none
  max_loss : Option ℚ := none
  avg_profit : Option ℚ := none
  avg_loss : Option ℚ := none
  avg_duration : Option ℚ := none
  max_duration : Option ℚ := none
  total_fee : Option ℚ := none
  final_balance : Option ℚ := none
deriving DecidableEq

/-- The response schema built by `normalizedResult`
(`src/index.js` lines 1470-1516). -/
structure NormalizedResult where
  trades : List Trade
  equity_curve : List EquityPoint
  roi : ℚ
  mdd : ℚ
  win_rate : ℚ
  total_trades : ℚ
  long_trades : ℚ
  short_trades : ℚ
  winning_trades : ℚ
  losing_trades : ℚ
  max_profit : ℚ
  max_loss : ℚ
  avg_profit : ℚ
  avg_loss : ℚ
  avg_duration : ℚ
  max_duration : ℚ
  total_fee : ℚ
  final_balance : JSVal
  initial_balance : JSVal
  symbol : Option JSVal
  timeframe : Option JSVal
deriving DecidableEq

/-- The result normalizer (`src/index.js` lines 1470-1516), mapping the
raw strategy result and the request settings to the response object.
`parseFloat(x) || 0` and `x || 0` coincide on the rational model of
numeric fields. -/
def normalizeResult (r : RawResult) (settings : JSObj) : NormalizedResult :=
  { trades := normalizeTrades (r.trades.getD [])
    equity_curve := r.equity_curve.getD []
    roi := jsNumOr r.roi 0
    mdd := jsNumOr r.mdd 0
    win_rate := jsNumOr r.win_rate 0
    total_trades := jsNumOr r.total_trades 0
    long_trades := jsNumOr r.long_trades 0
    short_trades := jsNumOr r.short_trades 0
    winning_trades := jsNumOr r.winning_trades 0
    losing_trades := jsNumOr r.losing_trades 0
    max_profit := jsNumOr r.max_profit 0
    max_loss := jsNumOr r.max_loss 0
    avg_profit := jsNumOr r.avg_profit 0
    avg_loss := jsNumOr r.avg_loss 0
    avg_duration := jsNumOr r.avg_duration 0
    max_duration := jsNumOr r.max_duration 0
    total_fee := jsNumOr r.total_fee 0
    final_balance := jsNumOrVal r.final_balance (jsOr (jget settings "initialBalance") (.num 10000))
    initial_balance := jsOr (jget settings "initialBalance") (.num 10000)
    symbol := jget settings "symbol"
    timeframe := jget settings "timeframe" }

/-- The explicitly defaulted knobs of `communitySettings`
(`src/index.js` lines 1327-1443), in source order.  Each entry is
`settings.k || default` except `martingaleOnLoss`, `masterLongEnabled`
and `masterShortEnabled`, which are `settings.k !== false`. -/
def explicitKnobs (s : JSObj) : JSObj :=
  [ ("leverage", jsOr (jget s "leverage") (.num 10))
  , ("equityPercent", jsOr (jget s "equityPercent") (.num 10))
  , ("compoundEnabled", jsOr (jget s "compoundEnabled") (.bool false))
  , ("maxPositionSize", jsOr (jget s "maxPositionSize") (.num 10000000))
  , ("stopLoss", jsOr (jget s "stopLoss") .null)
  , ("stopLossPercent", jsOr (jget s "stopLossPercent") .null)
  , ("stopLossPoints", jsOr (jget s "stopLossPoints") .null)
  , ("stopLossATR", jsOr (jget s "stopLossATR") .null)
  , ("takeProfit", jsOr (jget s "takeProfit") .null)
  , ("takeProfitPercent", jsOr (jget s "takeProfitPercent") .null)
  , ("takeProfitPoints", jsOr (jget s "takeProfitPoints") .null)
  , ("takeProfitATR", jsOr (jget s "takeProfitATR") .null)
  , ("trailingStop", jsOr (jget s "trailingStop") .null)
  , ("trailingStopPercent", jsOr (jget s "trailingStopPercent") .null)
  , ("trailingStopDistance", jsOr (jget s "trailingStopDistance") .null)
  , ("trailingStopTrigger", jsOr (jget s "trailingStopTrigger") .null)
  , ("breakEvenEnabled", jsOr (jget s "breakEvenEnabled") (.bool false))
  , ("breakEvenTrigger", jsOr (jget s "breakEvenTrigger") .null)
  , ("breakEvenOffset", jsOr (jget s "breakEvenOffset") (.num 0))
  , ("maxDrawdown", jsOr (jget s "maxDrawdown") (.num 50))
  , ("maxDailyLoss", jsOr (jget s "maxDailyLoss") .null)
  , ("maxConsecutiveLosses", jsOr (jget s "maxConsecutiveLosses") .null)
  , ("partialCloseEnabled", jsOr (jget s "partialCloseEnabled") (.bool false))
  , ("partialClosePercent", jsOr (jget s "partialClosePercent") (.num 50))
  , ("partialCloseTrigger", jsOr (jget s "partialCloseTrigger") .null)
  , ("partialClose2Enabled", jsOr (jget s "partialClose2Enabled") (.bool false))
  , ("partialClose2Percent", jsOr (jget s "partialClose2Percent") (.num 25))
  , ("partialClose2Trigger", jsOr (jget s "partialClose2Trigger") .null)
  , ("scalingInEnabled", jsOr (jget s "scalingInEnabled") (.bool false))
  , ("scalingInLevels", jsOr (jget s "scalingInLevels") (.num 3))
  , ("scalingInDistance", jsOr (jget s "scalingInDistance") .null)
  , ("scalingOutEnabled", jsOr (jget s "scalingOutEnabled") (.bool false))
  , ("scalingOutLevels", jsOr (jget s "scalingOutLevels") (.num 3))
  , ("scalingOutDistance", jsOr (jget s "scalingOutDistance") .null)
  , ("martingaleEnabled", jsOr (jget s "martingaleEnabled") (.bool false))
  , ("martingaleMultiplier", jsOr (jget s "martingaleMultiplier") (.num 2))
  , ("maxMartingaleLevel", jsOr (jget s "maxMartingaleLevel") (.num 5))
  , ("martingaleOnLoss", .bool (decide (jget s "martingaleOnLoss" ≠ some (.bool false))))
  , ("antiMartingaleEnabled", jsOr (jget s "antiMartingaleEnabled") (.bool false))
  , ("antiMartingaleMultiplier", jsOr (jget s "antiMartingaleMultiplier") (.num (3 / 2)))
  , ("recoveryEnabled", jsOr (jget s "recoveryEnabled") (.bool false))
  , ("recoveryTarget", jsOr (jget s "recoveryTarget") (.num 100))
  , ("recoveryMethod", jsOr (jget s "recoveryMethod") (.str "grid"))
  , ("maxPositions", jsOr (jget s "maxPositions") (.num 1))
  , ("maxLongPositions", jsOr (jget s "maxLongPositions") .null)
  , ("maxShortPositions", jsOr (jget s "maxShortPositions") .null)
  , ("maxDailyTrades", jsOr (jget s "maxDailyTrades") .null)
  , ("maxWeeklyTrades", jsOr (jget s "maxWeeklyTrades") .null)
  , ("masterLongEnabled", .bool (decide (jget s "masterLongEnabled" ≠ some (.bool false))))
  , ("masterShortEnabled", .bool (decide (jget s "masterShortEnabled" ≠ some (.bool false))))
  , ("masterReverse", jsOr (jget s "masterReverse") (.bool false))
  , ("tradingHours", jsOr (jget s "tradingHours") .null)
  , ("sessionStart", jsOr (jget s "sessionStart") .null)
  , ("sessionEnd", jsOr (jget s "sessionEnd") .null)
  , ("avoidWeekends", jsOr (jget s "avoidWeekends") (.bool false))
  , ("avoidMonday", jsOr (jget s "avoidMonday") (.bool false))
  , ("avoidFriday", jsOr (jget s "avoidFriday") (.bool false))
  , ("volumeFilter", jsOr (jget s "volumeFilter") (.num 0))
  , ("volatilityFilter", jsOr (jget s "volatilityFilter") .null)
  , ("spreadFilter", jsOr (jget s "spreadFilter") .null)
  , ("trendFilter", jsOr (jget s "trendFilter") .null)
  , ("priceFilter", jsOr (jget s "priceFilter") .null)
  , ("atrPeriod", jsOr (jget s "atrPeriod") (.num 14))
  , ("atrMultiplier", jsOr (jget s "atrMultiplier") (.num 2))
  , ("hedgingEnabled", jsOr (jget s "hedgingEnabled") (.bool false))
  , ("hedgingDistance", jsOr (jget s "hedgingDistance") .null)
  , ("hedgingMultiplier", jsOr (jget s "hedgingMultiplier") (.num 1))
  , ("gridTradingEnabled", jsOr (jget s "gridTradingEnabled") (.bool false))
  , ("gridLevels", jsOr (jget s "gridLevels") (.num 5))
  , ("gridDistance", jsOr (jget s "gridDistance") .null)
  , ("pyramidingEnabled", jsOr (jget s "pyramidingEnabled") (.bool false))
  , ("pyramidingLevels", jsOr (jget s "pyramidingLevels") (.num 3))
  , ("pyramidingDistance", jsOr (jget s "pyramidingDistance") .null)
  , ("pyramidingMultiplier", jsOr (jget s "pyramidingMultiplier") (.num 1))
  , ("feePercent", jsOr (jget s "feePercent")
      (if jget s "market_type" = some (.str "spot") then .num (1 / 10) else .num (1 / 20)))
  , ("slippage", jsOr (jget s "slippage") (.num 0))
  , ("orderTimeout", jsOr (jget s "orderTimeout") .null)
  , ("requireConfirmation", jsOr (jget s "requireConfirmation") (.bool false))
  , ("newsFilterEnabled", jsOr (jget s "newsFilterEnabled") (.bool false))
  , ("newsAvoidMinutes", jsOr (jget s "newsAvoidMinutes") (.num 30))
  , ("minCandlesRequired", jsOr (jget s "minCandlesRequired") (.num 50))
  , ("warmupPeriod", jsOr (jget s "warmupPeriod") (.num 100)) ]

/-- `communitySettings` (`src/index.js` lines 1323-1444): the caller
settings spread together with the defaulted knobs; the explicit knob
entries override the spread, so lookup prefers them. -/
def communitySettings (s : JSObj) : JSObj := explicitKnobs s ++ s

/-- The recognized knob keys, in source order. -/
def knobKeys : List String :=
  [ "leverage", "equityPercent", "compoundEnabled", "maxPositionSize"
  , "stopLoss", "stopLossPercent", "stopLossPoints", "stopLossATR"
  , "takeProfit", "takeProfitPercent", "takeProfitPoints", "takeProfitATR"
  , "trailingStop", "trailingStopPercent", "trailingStopDistance", "trailingStopTrigger"
  , "breakEvenEnabled", "breakEvenTrigger", "breakEvenOffset"
  , "maxDrawdown", "maxDailyLoss", "maxConsecutiveLosses"
  , "partialCloseEnabled", "partialClosePercent", "partialCloseTrigger"
  , "partialClose2Enabled", "partialClose2Percent", "partialClose2Trigger"
  , "scalingInEnabled", "scalingInLevels", "scalingInDistance"
  , "scalingOutEnabled", "scalingOutLevels", "scalingOutDistance"
  , "martingaleEnabled", "martingaleMultiplier", "maxMartingaleLevel", "martingaleOnLoss"
  , "antiMartingaleEnabled", "antiMartingaleMultiplier"
  , "recoveryEnabled", "recoveryTarget", "recoveryMethod"
  , "maxPositions", "maxLongPositions", "maxShortPositions", "maxDailyTrades", "maxWeeklyTrades"
  , "masterLongEnabled", "masterShortEnabled", "masterReverse"
  , "tradingHours", "sessionStart", "sessionEnd", "avoidWeekends", "avoidMonday", "avoidFriday"
  , "volumeFilter", "volatilityFilter", "spreadFilter", "trendFilter", "priceFilter"
  , "atrPeriod", "atrMultiplier"
  , "hedgingEnabled", "hedgingDistance", "hedgingMultiplier"
  , "gridTradingEnabled", "gridLevels", "gridDistance"
  , "pyramidingEnabled", "pyramidingLevels", "pyramidingDistance", "pyramidingMultiplier"
  , "feePercent", "slippage", "orderTimeout", "requireConfirmation"
  , "newsFilterEnabled", "newsAvoidMinutes", "minCandlesRequired", "warmupPeriod" ]

/-- The knob keys that are defaulted with `||` (all of them except the
three `!== false` keys `martingaleOnLoss`, `masterLongEnabled`,
`masterShortEnabled`). -/
def orKnobKeys : List String :=
  knobKeys.filter (fun k =>
    k != "martingaleOnLoss" && k != "masterLongEnabled" && k != "masterShortEnabled")

/-- The documented default of each `||`-defaulted knob (the right-hand
operand of `||` in `communitySettings`); `.null` for keys outside the
table. -/
def orKnobDefault (s : JSObj) : String → JSVal
  | "leverage" => .num 10
  | "equityPercent" => .num 10
  | "compoundEnabled" => .bool false
  | "maxPositionSize" => .num 10000000
  | "breakEvenEnabled" => .bool false
  | "breakEvenOffset" => .num 0
  | "maxDrawdown" => .num 50
  | "partialCloseEnabled" => .bool false
  | "partialClosePercent" => .num 50
  | "partialClose2Enabled" => .bool false
  | "partialClose2Percent" => .num 25
  | "scalingInEnabled" => .bool false
  | "scalingInLevels" => .num 3
  | "scalingOutEnabled" => .bool false
  | "scalingOutLevels" => .num 3
  | "martingaleEnabled" => .bool false
  | "martingaleMultiplier" => .num 2
  | "maxMartingaleLevel" => .num 5
  | "antiMartingaleEnabled" => .bool false
  | "antiMartingaleMultiplier" => .num (3 / 2)
  | "recoveryEnabled" => .bool false
  | "recoveryTarget" => .num 100
  | "recoveryMethod" => .str "grid"
  | "maxPositions" => .num 1
  | "masterReverse" => .bool false
  | "avoidWeekends" => .bool false
  | "avoidMonday" => .bool false
  | "avoidFriday" => .bool false
  | "volumeFilter" => .num 0
  | "atrPeriod" => .num 14
  | "atrMultiplier" => .num 2
  | "hedgingEnabled" => .bool false
  | "hedgingMultiplier" => .num 1
  | "gridTradingEnabled" => .bool false
  | "gridLevels" => .num 5
  | "pyramidingEnabled" => .bool false
  | "pyramidingLevels" => .num 3
  | "pyramidingMultiplier" => .num 1
  | "feePercent" =>
      if jget s "market_type" = some (.str "spot") then .num (1 / 10) else .num (1 / 20)
  | "slippage" => .num 0
  | "requireConfirmation" => .bool false
  | "newsFilterEnabled" => .bool false
  | "newsAvoidMinutes" => .num 30
  | "minCandlesRequired" => .num 50
  | "warmupPeriod" => .num 100
  | _ => .null

/-- An OHLCV candle (`timestamp` in epoch milliseconds). -/
structure Candle where
  timestamp : ℤ
  open_ : ℚ
  high : ℚ
  low : ℚ
  close : ℚ
  volume : ℚ
deriving DecidableEq

/-- The `intervals` table of `convertTimeframe`
(`src/index.js` lines 665-672), in minutes. -/
def intervalMinutes : String → Option ℤ
  | "5m" => some 5
  | "15m" => some 15
  | "30m" => some 30
  | "1h" => some 60
  | "4h" => some 240
  | "1d" => some 1440
  | _ => none

/-- `Math.floor(timestamp / targetMs) * targetMs`: the epoch-aligned
bucket start of a timestamp. -/
def bucketStartOf (targetMs ts : ℤ) : ℤ := Int.fdiv ts targetMs * targetMs

/-- `Math.max(...)` over a list (the list is never empty at use sites). -/
def qListMax : List ℚ → ℚ
  | [] => 0
  | x :: xs => xs.foldl max x

/-- `Math.min(...)` over a list (the list is never empty at use sites). -/
def qListMin : List ℚ → ℚ
  | [] => 0
  | x :: xs => xs.foldl min x

/-- The candle pushed for one completed bucket
(`src/index.js` lines 688-695 and 706-713). -/
def mkBucketCandle (bStart : ℤ) (bucket : List Candle) : Candle :=
  { timestamp := bStart
  , open_ := ((bucket.head?).map Candle.open_).getD 0
  , high := qListMax (bucket.map Candle.high)
  , low := qListMin (bucket.map Candle.low)
  , close := ((bucket.getLast?).map Candle.close).getD 0
  , volume := (bucket.map Candle.volume).sum }

/-- The accumulation loop of `convertTimeframe`
(`src/index.js` lines 680-714): `bStart` and `bucket` are the
`bucketStart`/`currentBucket` state, and the emitted candles are returned
in order. -/
def ctLoop (targetMs : ℤ) (bStart : Option ℤ) (bucket : List Candle) :
    List Candle → List Candle
  | [] => if bucket.isEmpty then [] else [mkBucketCandle (bStart.getD 0) bucket]
  | c :: rest =>
    let bt := bucketStartOf targetMs c.timestamp
    if bStart = some bt then
      ctLoop targetMs (some bt) (bucket ++ [c]) rest
    else
      (if bucket.isEmpty then [] else [mkBucketCandle (bStart.getD 0) bucket])
        ++ ctLoop targetMs (some bt) [c] rest

/-- `convertTimeframe` (`src/index.js` lines 662-717). -/
def convertTimeframe (candles : List Candle) (timeframe : String) : List Candle :=
  if timeframe = "1m" then candles
  else
    match intervalMinutes timeframe with
    | none => candles
    | some m => ctLoop (m * 60 * 1000) none [] candles

/-- Modelled from the spec (refinement reference): the distinct
epoch-aligned buckets present in the input, in order of appearance. -/
def bucketsPresent (targetMs : ℤ) (candles : List Candle) : List ℤ :=
  (candles.map (fun c => bucketStartOf targetMs c.timestamp)).dedup

/-- Modelled from the spec (refinement reference): the one output candle
of a bucket — timestamp is the bucket start, open/close are the first and
last input candle of the bucket, high/low the extrema, volume the sum. -/
def specBucketCandle (targetMs : ℤ) (candles : List Candle) (b : ℤ) : Candle :=
  let sub := candles.filter (fun c => bucketStartOf targetMs c.timestamp = b)
  { timestamp := b
  , open_ := ((sub.head?).map Candle.open_).getD 0
  , high := qListMax (sub.map Candle.high)
  , low := qListMin (sub.map Candle.low)
  , close := ((sub.getLast?).map Candle.close).getD 0
  , volume := (sub.map Candle.volume).sum }

/-- Modelled from the spec (refinement reference): one candle per
distinct bucket present in the input; passthrough for "1m" and
unrecognized timeframes. -/
def convertTimeframeSpec (candles : List Candle) (timeframe : String) : List Candle :=
  if timeframe = "1m" then candles
  else
    match intervalMinutes timeframe with
    | none => candles
    | some m =>
      let targetMs := m * 60 * 1000
      (bucketsPresent targetMs candles).map (specBucketCandle targetMs candles)

/-- File-system operations observable by the candle store during one
backtest request. -/
inductive FileOp where
  | existsCheck (path : String)
  | readFile (path : String)
deriving DecidableEq

/-- The outcome of the untrusted strategy-execution block (`eval` plus
the `runStrategy` call, `src/index.js` lines 1452-1459): either some
error was thrown (including the `typeof runStrategy` check failing), or
the call returned a value (`none` models a falsy return value). -/
inductive ExecOutcome where
  | throws (msg : String)
  | returns (r : Option RawResult)
deriving DecidableEq

/-- An HTTP response of the backtest route: a JSON body with status 200,
or an error body with the given status. -/
inductive BacktestResponse where
  | json (r : NormalizedResult)
  | err (status : ℕ) (msg : String)
deriving DecidableEq

/-- A 400-class (client error) status. -/
def is400Class (status : ℕ) : Prop := 400 ≤ status ∧ status < 500

/-- The candle-store root (`DATA_PATH`). -/
def DATA_PATH : String := "/data/candles"

/-- First candle-file candidate: `{DATA_PATH}/{market_type}/{symbol}.csv`. -/
def candlePath1 (marketType symbol : String) : String :=
  DATA_PATH ++ "/" ++ marketType ++ "/" ++ symbol ++ ".csv"

/-- Second candle-file candidate:
`{DATA_PATH}/{market_type}/{market_type}_{symbol}.csv`. -/
def candlePath2 (marketType symbol : String) : String :=
  DATA_PATH ++ "/" ++ marketType ++ "/" ++ marketType ++ "_" ++ symbol ++ ".csv"

/-- A read-only file system: paths with contents. -/
abbrev FileSys := List (String × String)

/-- `fs.existsSync`. -/
def fsExists (fsys : FileSys) (p : String) : Bool := (List.lookup p fsys).isSome

/-- The candle path the handler settles on (`src/index.js` lines
793-798): the first candidate if it exists, otherwise the second. -/
def resolvedCandlePath (fsys : FileSys) (marketType symbol : String) : String :=
  if fsExists fsys (candlePath1 marketType symbol) then candlePath1 marketType symbol
  else candlePath2 marketType symbol

/-- The `/api/backtest` handler from the entry-point check onward
(`src/index.js` lines 785-1527), returning the response together with
the ordered trace of candle-file operations.  `js_code` is the strategy
source after cleaning (lines 775-782); `marketType`/`symbol` are the
corresponding request settings; `exec` is the oracle outcome of the
untrusted strategy execution.  Candle parsing, date filtering and
timeframe conversion happen between the file read and the execution and
do not influence the modelled observables. -/
def handleBacktest (js_code : String) (settings : JSObj) (marketType symbol : String)
    (fsys : FileSys) (exec : ExecOutcome) : BacktestResponse × List FileOp :=
  if ¬ strContains js_code "function runStrategy" then
    (.err 400 "Invalid strategy code: missing runStrategy function", [])
  else
    let p1 := candlePath1 marketType symbol
    let fp := resolvedCandlePath fsys marketType symbol
    let ops := [FileOp.existsCheck p1, FileOp.existsCheck fp]
    if ¬ fsExists fsys fp then
      (.err 404 ("Candle file not found: " ++ symbol), ops)
    else
      let ops := ops ++ [FileOp.readFile fp]
      match exec with
      | .throws msg => (.err 500 ("Strategy execution failed: " ++ msg), ops)
      | .returns none =>
        (.err 500 "Strategy execution failed: Invalid backtest result: missing trades array", ops)
      | .returns (some r) =>
        match r.trades with
        | none =>
          (.err 500 "Strategy execution failed: Invalid backtest result: missing trades array", ops)
        | some _ => (.json (normalizeResult r settings), ops)

/-! ## Helper lemmas -/

theorem lookup_isSome_of_mem_keys {β : Type} (l : List (String × β)) (k : String)
    (h : k ∈ l.map Prod.fst) : (List.lookup k l).isSome = true := by
  induction l with
  | nil => simp at h
  | cons p tl ih =>
    obtain ⟨a, b⟩ := p
    by_cases hk : k = a
    · simp [List.lookup, hk]
    · have hba : (k == a) = false := by simp [hk]
      simp only [List.lookup, hba]
      apply ih
      simp only [List.map_cons, List.mem_cons] at h
      tauto

theorem lookup_append_left {β : Type} (a b : List (String × β)) (k : String)
    (h : (List.lookup k a).isSome = true) :
    List.lookup k (a ++ b) = List.lookup k a := by
  induction a with
  | nil => simp [List.lookup] at h
  | cons p tl ih =>
    obtain ⟨x, y⟩ := p
    by_cases hk : k = x
    · simp [List.lookup, hk]
    · have hbx : (k == x) = false := by simp [hk]
      simp only [List.cons_append, List.lookup, hbx]
      apply ih
      simpa [List.lookup, hbx] using h

theorem keepTrade_eq (t : Trade) :
    keepTrade t = (match t.balance with
                   | some b => decide (0 < b)
                   | none => false) := by
  cases hb : t.balance with
  | none => simp [keepTrade, qTruthy, hb]
  | some b =>
    by_cases h0 : (0 : ℚ) < b
    · simp [keepTrade, qTruthy, hb, h0, ne_of_gt h0]
    · simp [keepTrade, qTruthy, hb, h0]

/-! ## C1: a cleaned strategy source without the `function runStrategy`
marker is rejected with status 400 before any candle-file access -/

/-- C1: if the cleaned strategy source does not contain
`function runStrategy`, the backtest request is answered with the
400-status error and the candle-file trace is empty (no existence check,
open, or read). -/
theorem backtest_rejects_missing_runStrategy_marker
    (js_code : String) (settings : JSObj) (marketType symbol : String)
    (fsys : FileSys) (exec : ExecOutcome)
    (h : strContains js_code "function runStrategy" = false) :
    handleBacktest js_code settings marketType symbol fsys exec
      = (.err 400 "Invalid strategy code: missing runStrategy function", [])
    ∧ is400Class 400 := by
  constructor
  · simp [handleBacktest, h]
  · exact ⟨le_refl _, by norm_num⟩

/-- Witness for C1 at a concrete marker-less strategy source. -/
theorem backtest_rejects_missing_runStrategy_marker_witness :
    handleBacktest "return 1" [] "futures" "BTCUSDT" [] (.returns none)
      = (.err 400 "Invalid strategy code: missing runStrategy function", [])
    ∧ is400Class 400 :=
  backtest_rejects_missing_runStrategy_marker "return 1" [] "futures" "BTCUSDT" []
    (.returns none) (by decide)

/-! ## C4: `final_balance` is always present and defaults to the
request initial balance — but it is NOT always a number: the fallback
`parseFloat(fb) || settings.initialBalance || 10000` (line 1512) passes
a truthy non-numeric `initialBalance` through raw -/

/-- Counterexample to C4 as stated: a request whose `initialBalance` is
the string "abc" and whose strategy supplies no `final_balance` gets a
response whose `final_balance` is that string — not a (finite) number at
all. -/
theorem final_balance_not_number_counterexample :
    (normalizeResult {} [("initialBalance", JSVal.str "abc")]).final_balance
      = JSVal.str "abc"
    ∧ ∀ q : ℚ,
        (normalizeResult {} [("initialBalance", JSVal.str "abc")]).final_balance
          ≠ JSVal.num q := by
  have h : (normalizeResult {} [("initialBalance", JSVal.str "abc")]).final_balance
      = JSVal.str "abc" := rfl
  refine ⟨h, fun q hq => ?_⟩
  rw [h] at hq
  exact JSVal.noConfusion hq

/-- C4 as amended: the response `final_balance` is always present (the
field is always produced, though a truthy non-numeric request
`initialBalance` flows through raw); when the strategy result has no
numeric `final_balance`, it equals the response `initial_balance`, which
is the request `initialBalance` when that is supplied truthy and the
number 10000 when it is absent; a supplied non-zero numeric final
balance is kept. -/
theorem final_balance_total_and_defaults (r : RawResult) (settings : JSObj) :
    (r.final_balance = none →
        (normalizeResult r settings).final_balance
          = (normalizeResult r settings).initial_balance)
    ∧ (∀ v : JSVal, jget settings "initialBalance" = some v → v.truthy = true →
        r.final_balance = none → (normalizeResult r settings).final_balance = v)
    ∧ (∀ q : ℚ, r.final_balance = some q → q ≠ 0 →
        (normalizeResult r settings).final_balance = .num q)
    ∧ (jget settings "initialBalance" = none → r.final_balance = none →
        (normalizeResult r settings).final_balance = .num 10000) := by
  refine ⟨?_, ?_, ?_, ?_⟩
  · intro h
    simp [normalizeResult, jsNumOrVal, h, qTruthy]
  · intro v hv htr h
    simp [normalizeResult, jsNumOrVal, h, qTruthy, jsOr, hv, htr]
  · intro q hq hne
    simp [normalizeResult, jsNumOrVal, hq, qTruthy, hne]
  · intro hib h
    simp [normalizeResult, jsNumOrVal, h, qTruthy, jsOr, hib]

/-- Witness for the amended C4: a strategy result with no
`final_balance` and a request with `initialBalance = 5000`. -/
theorem final_balance_total_and_defaults_witness :
    (normalizeResult {} [("initialBalance", JSVal.num 5000)]).final_balance
      = JSVal.num 5000 :=
  (final_balance_total_and_defaults {} [("initialBalance", JSVal.num 5000)]).2.1
    (.num 5000) rfl (by simp [JSVal.truthy]) rfl

/-! ## C6: trades with missing or non-positive balance are dropped -/

/-- C6: every trade kept by the result normalizer has a defined,
strictly positive balance, and the number of kept trades is exactly the
number of input trades whose balance is present and positive (so every
trade with missing or non-positive balance is dropped). -/
theorem normalized_trades_positive_balance (ts : List Trade) :
    (∀ t ∈ normalizeTrades ts, ∃ b : ℚ, t.balance = some b ∧ 0 < b)
    ∧ (normalizeTrades ts).length
        = (ts.filter fun t =>
            match t.balance with
            | some b => decide (0 < b)
            | none => false).length := by
  constructor
  · intro t ht
    simp only [normalizeTrades, List.mem_map, List.mem_filter] at ht
    obtain ⟨t0, ⟨_, hkeep⟩, rfl⟩ := ht
    have hbal : (normalizeTrade t0).balance = t0.balance := rfl
    rw [hbal]
    rw [keepTrade_eq] at hkeep
    cases hb : t0.balance with
    | none => rw [hb] at hkeep; exact absurd hkeep (by simp)
    | some b =>
      rw [hb] at hkeep
      exact ⟨b, rfl, by simpa using hkeep⟩
  · rw [normalizeTrades, List.length_map]
    congr 1
    exact List.filter_congr fun t _ => keepTrade_eq t

/-- Witness for C6 at a one-trade list with balance 5. -/
theorem normalized_trades_positive_balance_witness :
    ∃ b : ℚ, (normalizeTrade { balance := some 5 } : Trade).balance = some b ∧ 0 < b :=
  (normalized_trades_positive_balance [{ balance := some 5 }]).1
    (normalizeTrade { balance := some 5 })
    (by simp [normalizeTrades, keepTrade, qTruthy])

/-! ## C2: a strategy result without a `trades` container fails the
request with no partial result — but with status 500, not a 400-class
status (the missing-trades throw is caught by the execution-error
handler, `src/index.js` lines 1461-1463 and 1520-1527) -/

/-- Counterexample to C2 as stated: at a concrete request whose strategy
execution returns a result with no `trades` container, the response
status is 500, which is not 400-class. -/
theorem missing_trades_status_counterexample :
    (handleBacktest "function runStrategy(candles, settings)"
        [] "futures" "BTCUSDT"
        [("/data/candles/futures/BTCUSDT.csv", "timestamp,open,high,low,close,volume")]
        (.returns (some {}))).1
      = .err 500 "Strategy execution failed: Invalid backtest result: missing trades array"
    ∧ ¬ is400Class 500 := by
  constructor
  · decide
  · intro h
    exact absurd h.2 (by norm_num)

/-- C2 as amended: for every request reaching strategy execution whose
result is falsy or lacks a `trades` container, the response is the
500-status strategy-execution error and is not a JSON result (no partial
backtest result is returned). -/
theorem missing_trades_rejected_with_500
    (js_code : String) (settings : JSObj) (marketType symbol : String)
    (fsys : FileSys) (r? : Option RawResult)
    (hmarker : strContains js_code "function runStrategy" = true)
    (hfile : fsExists fsys (resolvedCandlePath fsys marketType symbol) = true)
    (htrades : r? = none ∨ ∃ r, r? = some r ∧ r.trades = none) :
    (handleBacktest js_code settings marketType symbol fsys (.returns r?)).1
      = .err 500 "Strategy execution failed: Invalid backtest result: missing trades array"
    ∧ ∀ nr : NormalizedResult,
        (handleBacktest js_code settings marketType symbol fsys (.returns r?)).1 ≠ .json nr := by
  have hmain :
      (handleBacktest js_code settings marketType symbol fsys (.returns r?)).1
        = .err 500 "Strategy execution failed: Invalid backtest result: missing trades array" := by
    rcases htrades with rfl | ⟨r, rfl, hr⟩
    · simp [handleBacktest, hmarker, hfile]
    · simp [handleBacktest, hmarker, hfile, hr]
  exact ⟨hmain, fun nr h => by rw [hmain] at h; exact BacktestResponse.noConfusion h⟩

/-- Witness for the amended C2 at a concrete request. -/
theorem missing_trades_rejected_with_500_witness :
    (handleBacktest "function runStrategy(candles, settings)"
        [] "spot" "ETHUSDT"
        [("/data/candles/spot/ETHUSDT.csv", "timestamp,open,high,low,close,volume")]
        (.returns none)).1
      = .err 500 "Strategy execution failed: Invalid backtest result: missing trades array" :=
  (missing_trades_rejected_with_500 "function runStrategy(candles, settings)"
    [] "spot" "ETHUSDT"
    [("/data/candles/spot/ETHUSDT.csv", "timestamp,open,high,low,close,volume")]
    none (by decide) (by decide) (Or.inl rfl)).1

theorem lookup_communitySettings_feePercent (s : JSObj) :
    jget (communitySettings s) "feePercent"
      = some (jsOr (jget s "feePercent")
          (if jget s "market_type" = some (.str "spot")
           then JSVal.num (1 / 10) else JSVal.num (1 / 20))) := rfl

theorem lookup_communitySettings_orKnob (s : JSObj) (k : String) (hk : k ∈ orKnobKeys) :
    jget (communitySettings s) k = some (jsOr (jget s k) (orKnobDefault s k)) := by
  fin_cases hk <;> rfl

theorem orKnobDefault_cons_irrel (s : JSObj) (v : JSVal) (k : String) (hk : k ∈ orKnobKeys) :
    orKnobDefault ((k, v) :: s) k = orKnobDefault s k := by
  fin_cases hk <;> rfl

/-! ## C5: the fee default is 0.1 for spot and 0.05 for futures; a
truthy supplied `feePercent` is kept, but a supplied `0` is replaced by
the default (`feePercent: settings.feePercent || ...`) -/

/-- Counterexample to C5 as stated: an explicitly supplied
`feePercent: 0` is not kept — it normalizes to the spot default 0.1. -/
theorem feePercent_zero_counterexample :
    jget (communitySettings [("feePercent", JSVal.num 0), ("market_type", JSVal.str "spot")])
        "feePercent" ≠ some (JSVal.num 0)
    ∧ jget (communitySettings [("feePercent", JSVal.num 0), ("market_type", JSVal.str "spot")])
        "feePercent" = some (JSVal.num (1 / 10)) := by
  have h : jget (communitySettings
      [("feePercent", JSVal.num 0), ("market_type", JSVal.str "spot")]) "feePercent"
      = some (JSVal.num (1 / 10)) := by
    have h1 : jget [("feePercent", JSVal.num 0), ("market_type", JSVal.str "spot")]
        "feePercent" = some (JSVal.num 0) := rfl
    have h2 : jget [("feePercent", JSVal.num 0), ("market_type", JSVal.str "spot")]
        "market_type" = some (JSVal.str "spot") := rfl
    rw [lookup_communitySettings_feePercent, h1, h2]
    norm_num [jsOr, JSVal.truthy]
  refine ⟨?_, h⟩
  rw [h]
  intro hcontra
  have : (1 / 10 : ℚ) = 0 := by injection hcontra with h1; injection h1
  norm_num at this

/-- C5 as amended: with `feePercent` omitted, normalization yields 0.1
for `market_type: "spot"` and 0.05 for `market_type: "futures"`; a
supplied truthy (non-zero) `feePercent` is kept (a falsy one is replaced
by the market-type default). -/
theorem feePercent_defaults (s : JSObj) :
    (jget s "feePercent" = none →
        (jget s "market_type" = some (.str "spot") →
            jget (communitySettings s) "feePercent" = some (.num (1 / 10)))
        ∧ (jget s "market_type" = some (.str "futures") →
            jget (communitySettings s) "feePercent" = some (.num (1 / 20))))
    ∧ (∀ v : JSVal, v.truthy = true → jget s "feePercent" = some v →
        jget (communitySettings s) "feePercent" = some v) := by
  constructor
  · intro hnone
    constructor
    · intro hspot
      rw [lookup_communitySettings_feePercent, hnone, hspot]
      simp [jsOr]
    · intro hfut
      rw [lookup_communitySettings_feePercent, hnone, hfut]
      simp [jsOr]
  · intro v htr hv
    rw [lookup_communitySettings_feePercent, hv]
    simp [jsOr, htr]

/-- Witness for the amended C5: omitted fee on spot and futures, and a
kept supplied fee of 0.2. -/
theorem feePercent_defaults_witness :
    jget (communitySettings [("market_type", JSVal.str "spot")]) "feePercent"
        = some (JSVal.num (1 / 10))
    ∧ jget (communitySettings [("market_type", JSVal.str "futures")]) "feePercent"
        = some (JSVal.num (1 / 20))
    ∧ jget (communitySettings [("feePercent", JSVal.num (1 / 5))]) "feePercent"
        = some (JSVal.num (1 / 5)) :=
  ⟨((feePercent_defaults [("market_type", JSVal.str "spot")]).1 rfl).1 rfl,
   ((feePercent_defaults [("market_type", JSVal.str "futures")]).1 rfl).2 rfl,
   (feePercent_defaults [("feePercent", JSVal.num (1 / 5))]).2 (JSVal.num (1 / 5))
     (by simp [JSVal.truthy]) rfl⟩

/-! ## C10: every `||`-defaulted knob treats a supplied falsy value as
omitted; in particular `feePercent: 0` gets the market default and
`leverage: 0` becomes 10 -/

/-- C10: for each `||`-defaulted knob (every defaulted key except
`martingaleOnLoss`, `masterLongEnabled`, `masterShortEnabled`), supplying
a falsy value is the same as omitting the key, so the documented default
is used; concretely, a supplied `feePercent: 0` normalizes to the
market-type default (0.1 spot, 0.05 futures) and `leverage: 0` to 10. -/
theorem or_knob_falsy_uses_default :
    (∀ (s : JSObj) (v : JSVal) (k : String), k ∈ orKnobKeys → v.truthy = false →
        jget s k = none →
        jget (communitySettings ((k, v) :: s)) k = jget (communitySettings s) k)
    ∧ jget (communitySettings [("feePercent", JSVal.num 0), ("market_type", JSVal.str "futures")])
        "feePercent" = some (JSVal.num (1 / 20))
    ∧ jget (communitySettings [("leverage", JSVal.num 0)]) "leverage" = some (JSVal.num 10) := by
  refine ⟨?_, ?_, ?_⟩
  · intro s v k hk hv hnone
    rw [lookup_communitySettings_orKnob _ _ hk, lookup_communitySettings_orKnob _ _ hk,
      orKnobDefault_cons_irrel s v k hk]
    have hg : jget ((k, v) :: s) k = some v := by simp [jget, List.lookup]
    rw [hg, hnone]
    simp [jsOr, hv]
  · have h1 : jget [("feePercent", JSVal.num 0), ("market_type", JSVal.str "futures")]
        "feePercent" = some (JSVal.num 0) := rfl
    have h2 : jget [("feePercent", JSVal.num 0), ("market_type", JSVal.str "futures")]
        "market_type" = some (JSVal.str "futures") := rfl
    rw [lookup_communitySettings_feePercent, h1, h2]
    norm_num [jsOr, JSVal.truthy]
    decide
  · rw [lookup_communitySettings_orKnob _ _ (by decide)]
    show some (jsOr (some (JSVal.num 0)) (JSVal.num 10)) = some (JSVal.num 10)
    norm_num [jsOr, JSVal.truthy]

/-- Witness for C10: a falsy supplied `leverage` behaves as an omitted
one. -/
theorem or_knob_falsy_uses_default_witness :
    jget (communitySettings [("leverage", JSVal.num 0)]) "leverage"
      = jget (communitySettings []) "leverage" :=
  or_knob_falsy_uses_default.1 [] (JSVal.num 0) "leverage" (by decide)
    (by simp [JSVal.truthy]) rfl

/-! ## C9: after normalization every recognized knob is present
(possibly null), never undefined -/

/-- C9: for every input settings object, every recognized knob key is
defined (present, possibly with value `null`) in the normalized
settings; the strategy can never observe `undefined` for it. -/
theorem communitySettings_defines_all_knobs (s : JSObj) (k : String) (hk : k ∈ knobKeys) :
    (jget (communitySettings s) k).isSome = true := by
  have hkeys : (explicitKnobs s).map Prod.fst = knobKeys := rfl
  have h1 : (List.lookup k (explicitKnobs s)).isSome = true :=
    lookup_isSome_of_mem_keys _ _ (by rw [hkeys]; exact hk)
  rw [jget, communitySettings, lookup_append_left _ _ _ h1]
  exact h1

/-- Witness for C9: `stopLoss` is defined (as null) on empty caller
settings. -/
theorem communitySettings_defines_all_knobs_witness :
    (jget (communitySettings []) "stopLoss").isSome = true :=
  communitySettings_defines_all_knobs [] "stopLoss" (by decide)

theorem qfloor_eq_floor (x : ℚ) : qfloor x = ⌊x⌋ := by
  rw [Rat.floor_def, qfloor, Int.fdiv_eq_ediv _ (by positivity)]

theorem roundTo_eq (n : ℕ) (x : ℚ) : roundTo n x = (⌊x * 10 ^ n + 1 / 2⌋ : ℚ) / 10 ^ n := by
  rw [roundTo, qfloor_eq_floor]

theorem roundTo_zero (n : ℕ) : roundTo n 0 = 0 := by
  rw [roundTo_eq]
  norm_num [Int.floor_eq_zero_iff]

theorem roundTo_nonneg (n : ℕ) (x : ℚ) (h : 0 ≤ x) : 0 ≤ roundTo n x := by
  rw [roundTo_eq]
  apply div_nonneg _ (by positivity)
  have hz : (0 : ℤ) ≤ ⌊x * 10 ^ n + 1 / 2⌋ := by
    apply Int.floor_nonneg.mpr
    have : (0 : ℚ) ≤ x * 10 ^ n := mul_nonneg h (by positivity)
    linarith
  exact_mod_cast hz

/-! ## C3: coin_size is the size rounded to 8 decimals (non-negative for
non-negative sizes), but usdt_size is computed from the UN-rounded size,
not from coin_size (`src/index.js` line 1476 uses `coinSize`, the raw
size, before the `toFixed(8)` of line 1489) -/

/-- The concrete trade of the C3 counterexample:
`size = 0.1234567849`, `entry_price = 10^8`, `balance = 1`. -/
def c3Trade : Trade :=
  { size := some (1234567849 / 10 ^ 10), entry_price := some (10 ^ 8), balance := some 1 }

/-- Counterexample to C3 as stated: this trade has
`coin_size = 0.12345678` and `usdt_size = 12345678.49`, while
`round(coin_size * entry_price, 2) = 12345678`: `usdt_size` is computed
from the un-rounded size, not from `coin_size`. -/
theorem usdt_size_from_unrounded_size_counterexample :
    ((normalizeTrade c3Trade).coin_size = some (12345678 / 10 ^ 8))
    ∧ ((normalizeTrade c3Trade).usdt_size = some (1234567849 / 100))
    ∧ roundTo 2 ((12345678 / 10 ^ 8 : ℚ) * 10 ^ 8) = 12345678
    ∧ (1234567849 / 100 : ℚ) ≠ (12345678 : ℚ) := by
  have hcs : coinSizeOf c3Trade = 1234567849 / 10 ^ 10 := by
    norm_num [coinSizeOf, c3Trade, qTruthy]
  have hus : usdtSizeOf c3Trade = 1234567849 / 100 := by
    rw [usdtSizeOf, hcs]
    norm_num [qTruthy, c3Trade]
  refine ⟨?_, ?_, ?_, by norm_num⟩
  · have h1 : (normalizeTrade c3Trade).coin_size
        = some (if coinSizeOf c3Trade ≠ 0 then roundTo 8 (coinSizeOf c3Trade) else 0) := rfl
    rw [h1, hcs, if_pos (by norm_num), roundTo_eq]
    norm_num
  · have h1 : (normalizeTrade c3Trade).usdt_size
        = some (if usdtSizeOf c3Trade ≠ 0 then roundTo 2 (usdtSizeOf c3Trade) else 0) := rfl
    rw [h1, hus, if_pos (by norm_num), roundTo_eq]
    norm_num
  · rw [roundTo_eq]
    norm_num

/-- C3 as amended: `coin_size` is the raw size (`t.size || 0`) rounded
to 8 decimals and is non-negative whenever the raw size is; `usdt_size`
is the UN-rounded raw size times the entry price, rounded to 2 decimals,
when both are defined and non-zero, and 0 when either operand is absent
or falsy. -/
theorem trade_size_normalization (t : Trade) :
    ((normalizeTrade t).coin_size = some (roundTo 8 (coinSizeOf t)))
    ∧ (∀ q : ℚ, t.size = some q → 0 ≤ q →
        ∃ c : ℚ, (normalizeTrade t).coin_size = some c ∧ 0 ≤ c)
    ∧ (∀ q p : ℚ, t.size = some q → q ≠ 0 → t.entry_price = some p → p ≠ 0 →
        (normalizeTrade t).usdt_size = some (roundTo 2 (q * p)))
    ∧ (qTruthy t.entry_price = false ∨ coinSizeOf t = 0 →
        (normalizeTrade t).usdt_size = some 0) := by
  have hcoin : (normalizeTrade t).coin_size
      = some (if coinSizeOf t ≠ 0 then roundTo 8 (coinSizeOf t) else 0) := rfl
  have husd : (normalizeTrade t).usdt_size
      = some (if usdtSizeOf t ≠ 0 then roundTo 2 (usdtSizeOf t) else 0) := rfl
  have hfirst : (normalizeTrade t).coin_size = some (roundTo 8 (coinSizeOf t)) := by
    by_cases h : coinSizeOf t = 0
    · rw [hcoin, h, roundTo_zero]
      simp
    · rw [hcoin, if_pos h]
  refine ⟨hfirst, ?_, ?_, ?_⟩
  · intro q hq hge
    refine ⟨roundTo 8 (coinSizeOf t), hfirst, roundTo_nonneg _ _ ?_⟩
    by_cases h0 : q = 0
    · simp [coinSizeOf, qTruthy, hq, h0]
    · simp only [coinSizeOf, qTruthy, hq]
      simpa [h0] using hge
  · intro q p hq hqne hp hpne
    have hcs : coinSizeOf t = q := by simp [coinSizeOf, qTruthy, hq, hqne]
    have hus : usdtSizeOf t = q * p := by
      rw [usdtSizeOf, hcs, hp]
      simp [qTruthy, hpne, hqne]
    rw [husd, hus, if_pos (mul_ne_zero hqne hpne)]
  · intro h
    have hus : usdtSizeOf t = 0 := by
      rcases h with h | h
      · simp [usdtSizeOf, h]
      · simp [usdtSizeOf, h]
    rw [husd, hus]
    simp

/-- Witness for the amended C3 at a concrete trade with size 2 and
entry price 3. -/
theorem trade_size_normalization_witness :
    (normalizeTrade { size := some 2, entry_price := some 3, balance := some 1 }).usdt_size
      = some (roundTo 2 (2 * 3)) :=
  (trade_size_normalization { size := some 2, entry_price := some 3, balance := some 1 }).2.2.1
    2 3 rfl (by norm_num) rfl (by norm_num)

/-! ## C7: the per-trade normalization is idempotent -/

theorem char_toNat_ofNat_valid (n : Nat) (h : n.isValidChar) : (Char.ofNat n).toNat = n := by
  rw [Char.ofNat, dif_pos h]
  simp [Char.ofNatAux, Char.toNat, UInt32.toNat]

theorem upChar_idem (c : Char) : upChar (upChar c) = upChar c := by
  unfold upChar
  split
  · next h =>
    have hv : (c.toNat - 32).isValidChar := by
      unfold Nat.isValidChar
      omega
    rw [char_toNat_ofNat_valid _ hv, if_neg (by omega)]
  · rfl

theorem jsToUpper_idem (s : String) : jsToUpper (jsToUpper s) = jsToUpper s := by
  unfold jsToUpper
  rw [show (String.mk (s.data.map upChar)).data = s.data.map upChar from rfl, List.map_map]
  congr 1
  exact List.map_congr_left fun c _ => upChar_idem c

theorem jsToUpper_ne_empty (s : String) (h : s ≠ "") : jsToUpper s ≠ "" := by
  intro hc
  apply h
  have hdata : (jsToUpper s).data = [] := by rw [hc]
  have hnil : s.data = [] := by
    have hmap : s.data.map upChar = [] := hdata
    exact List.map_eq_nil_iff.mp hmap
  exact String.ext (by rw [hnil])

theorem append_ne_empty_left (x y : String) (h : x.data ≠ []) : x ++ y ≠ "" := by
  intro hc
  apply h
  have hdata : (x ++ y).data = [] := by rw [hc]
  rw [String.data_append] at hdata
  exact (List.append_eq_nil.mp hdata).1

theorem chListStarts_self_append (pat rest : List Char) :
    chListStarts pat (pat ++ rest) = true := by
  induction pat with
  | nil => rfl
  | cons p ps ih => simp [chListStarts, ih]

theorem chListHas_of_starts (pat l : List Char) (h : chListStarts pat l = true) :
    chListHas pat l = true := by
  cases l with
  | nil => rw [chListHas]; exact h
  | cons c cs => simp [chListHas, h]

theorem strContains_of_data_append (s pat : String) (rest : List Char)
    (h : s.data = pat.data ++ rest) : strContains s pat = true := by
  rw [strContains, h]
  exact chListHas_of_starts _ _ (chListStarts_self_append _ _)

theorem jsSideU_idem (sd : Option String) : jsSideU (jsSideU sd) = jsSideU sd := by
  cases sd with
  | none => rfl
  | some s =>
    by_cases h : s = ""
    · simp [jsSideU, strOptTruthy, h]
    · have h1 : jsSideU (some s) = some (jsToUpper s) := by simp [jsSideU, strOptTruthy, h]
      rw [h1]
      have h2 : jsToUpper s ≠ "" := jsToUpper_ne_empty s h
      simp [jsSideU, strOptTruthy, h2, jsToUpper_idem]

theorem jsOrderType0_ne_empty (ot : Option String) : jsOrderType0 ot ≠ "" := by
  cases ot with
  | none => decide
  | some s =>
    by_cases h : s = ""
    · simp [jsOrderType0, strOptTruthy, h]
    · simp [jsOrderType0, strOptTruthy, h]

theorem jsOrderType0_some_of_ne (s : String) (h : s ≠ "") : jsOrderType0 (some s) = s := by
  simp [jsOrderType0, strOptTruthy, h]

theorem jsOrderType1_ne_empty (sd : Option String) (ot : String) (h : ot ≠ "") :
    jsOrderType1 sd ot ≠ "" := by
  rw [jsOrderType1]
  split
  · apply append_ne_empty_left
    split <;> decide
  · exact h

theorem jsOrderType1_idem (sd : Option String) (ot : String) :
    jsOrderType1 sd (jsOrderType1 sd ot) = jsOrderType1 sd ot := by
  by_cases hc : (sd.isSome && !(strContains ot "BUY") && !(strContains ot "SELL")) = true
  · have hinner : jsOrderType1 sd ot
        = (if sd = some "LONG" then "BUY" else "SELL") ++ " " ++ ot := by
      rw [jsOrderType1, if_pos hc]
    by_cases hl : sd = some "LONG"
    · have hbuy : strContains ((if sd = some "LONG" then "BUY" else "SELL") ++ " " ++ ot)
          "BUY" = true := by
        rw [if_pos hl]
        exact strContains_of_data_append _ _ (' ' :: ot.data) (by simp)
      rw [hinner, jsOrderType1, if_neg (by simp [hbuy])]
    · have hsell : strContains ((if sd = some "LONG" then "BUY" else "SELL") ++ " " ++ ot)
          "SELL" = true := by
        rw [if_neg hl]
        exact strContains_of_data_append _ _ (' ' :: ot.data) (by simp)
      rw [hinner, jsOrderType1, if_neg (by simp [hsell])]
  · have hinner : jsOrderType1 sd ot = ot := by rw [jsOrderType1, if_neg hc]
    rw [hinner]
    exact hinner

theorem normalizeTrade_idem (t : Trade) :
    normalizeTrade (normalizeTrade t) = normalizeTrade t := by
  obtain ⟨et, ep, xt, xp, sd, pn, fe, sz, du, ot, ba, cs, us⟩ := t
  simp only [normalizeTrade, Trade.mk.injEq]
  refine ⟨trivial, trivial, trivial, trivial, jsSideU_idem sd, trivial, trivial, trivial,
    trivial, ?_, trivial, rfl, rfl⟩
  rw [jsSideU_idem,
    jsOrderType0_some_of_ne _ (jsOrderType1_ne_empty _ _ (jsOrderType0_ne_empty ot))]
  exact congrArg some (jsOrderType1_idem _ _)

/-- C7: feeding the trades of an already-normalized result back through
the result normalizer keeps exactly the same trades with every field
unchanged. -/
theorem normalizeTrades_idem (ts : List Trade) :
    normalizeTrades (normalizeTrades ts) = normalizeTrades ts := by
  rw [normalizeTrades, normalizeTrades, List.filter_map,
    show (keepTrade ∘ normalizeTrade) = keepTrade from funext fun t => rfl,
    List.filter_filter,
    show (fun t => keepTrade t && keepTrade t) = keepTrade from funext fun t => Bool.and_self _,
    List.map_map]
  exact List.map_congr_left fun t _ => normalizeTrade_idem t

/-! ## C8: timeframe resampling groups sorted candles into epoch-aligned
buckets, one output candle per distinct bucket -/

theorem bucketStartOf_mono (tms : ℤ) (hpos : 0 < tms) (a b : ℤ) (h : a ≤ b) :
    bucketStartOf tms a ≤ bucketStartOf tms b := by
  rw [bucketStartOf, bucketStartOf, Int.fdiv_eq_ediv _ hpos.le, Int.fdiv_eq_ediv _ hpos.le]
  exact mul_le_mul_of_nonneg_right (Int.ediv_le_ediv hpos h) hpos.le

theorem chain'_le_head (f : Candle → ℤ) :
    ∀ (x : Candle) (xs : List Candle),
      List.Chain' (fun a b => f a ≤ f b) (x :: xs) → ∀ y ∈ xs, f x ≤ f y := by
  intro x xs
  induction xs generalizing x with
  | nil => intro _ y hy; cases hy
  | cons z zs ih =>
    intro h y hy
    have hxz : f x ≤ f z := (List.chain'_cons.mp h).1
    rcases List.mem_cons.mp hy with rfl | hy'
    · exact hxz
    · exact le_trans hxz (ih z (List.chain'_cons.mp h).2 y hy')

theorem dropWhile_key_ne (f : Candle → ℤ) (k : ℤ) :
    ∀ (l : List Candle),
      List.Chain' (fun a b => f a ≤ f b) l → (∀ x ∈ l, k ≤ f x) →
      ∀ y ∈ l.dropWhile (fun x => decide (f x = k)), f y ≠ k := by
  intro l
  induction l with
  | nil => intro _ _ y hy; cases hy
  | cons x xs ih =>
    intro hch hk y hy
    by_cases hx : f x = k
    · rw [List.dropWhile_cons_of_pos (by simp [hx])] at hy
      exact ih hch.tail (fun z hz => hk z (List.mem_cons_of_mem _ hz)) y hy
    · rw [List.dropWhile_cons_of_neg (by simp [hx])] at hy
      rcases List.mem_cons.mp hy with rfl | hy'
      · exact hx
      · have h1 : f x ≤ f y := chain'_le_head f x xs hch y hy'
        have h2 : k ≤ f x := hk x (List.mem_cons_self _ _)
        omega

theorem dedup_const_append (k : ℤ) :
    ∀ (l1 l2 : List ℤ), (∀ a ∈ l1, a = k) → l1 ≠ [] → k ∉ l2 →
      (l1 ++ l2).dedup = k :: l2.dedup := by
  intro l1
  induction l1 with
  | nil => intro l2 _ h _; exact absurd rfl h
  | cons a l1' ih =>
    intro l2 hall hne hk2
    have ha : a = k := hall a (List.mem_cons_self _ _)
    subst ha
    cases l1' with
    | nil =>
      rw [List.cons_append, List.nil_append]
      exact List.dedup_cons_of_not_mem hk2
    | cons b l1'' =>
      have hb : b = a := hall b (List.mem_cons_of_mem _ (List.mem_cons_self _ _))
      have hmem : a ∈ (b :: l1'') ++ l2 := by
        rw [hb]
        simp
      rw [List.cons_append, List.dedup_cons_of_mem hmem]
      exact ih l2 (fun x hx => hall x (List.mem_cons_of_mem _ hx)) (by simp) hk2

theorem ctLoop_restart (tms : ℤ) (c : Candle) (rest : List Candle) :
    ctLoop tms none [] (c :: rest)
      = ctLoop tms (some (bucketStartOf tms c.timestamp)) [c] rest := by
  simp [ctLoop]

theorem ctLoop_run (tms k : ℤ) :
    ∀ (xs acc rest : List Candle),
      (∀ x ∈ xs, bucketStartOf tms x.timestamp = k) →
      acc ≠ [] →
      (∀ y ∈ rest.head?, bucketStartOf tms y.timestamp ≠ k) →
      ctLoop tms (some k) acc (xs ++ rest)
        = mkBucketCandle k (acc ++ xs) :: ctLoop tms none [] rest := by
  intro xs
  induction xs with
  | nil =>
    intro acc rest _ hacc hrest
    have haccE : acc.isEmpty = false := by simp [List.isEmpty_iff, hacc]
    cases rest with
    | nil => simp [ctLoop, haccE]
    | cons y ys =>
      have hy : bucketStartOf tms y.timestamp ≠ k := hrest y (by simp)
      rw [List.nil_append]
      simp only [ctLoop, haccE, Bool.false_eq_true, if_false]
      rw [if_neg (fun h => hy (Option.some.inj h).symm)]
      rw [← ctLoop_restart]
      simp [List.append_nil]
  | cons x xs' ih =>
    intro acc rest hxs hacc hrest
    have hx : bucketStartOf tms x.timestamp = k := hxs x (by simp)
    rw [List.cons_append]
    simp only [ctLoop, hx, if_pos rfl]
    rw [ih (acc ++ [x]) rest (fun z hz => hxs z (List.mem_cons_of_mem _ hz)) (by simp) hrest]
    rw [List.append_assoc]
    rfl

theorem ctLoop_eq_spec (tms : ℤ) (hpos : 0 < tms) :
    ∀ (n : ℕ) (cs : List Candle), cs.length ≤ n →
      List.Chain' (fun a b : Candle => a.timestamp ≤ b.timestamp) cs →
      ctLoop tms none [] cs = (bucketsPresent tms cs).map (specBucketCandle tms cs) := by
  intro n
  induction n with
  | zero =>
    intro cs hlen _
    have hnil : cs = [] := List.length_eq_zero.mp (Nat.le_zero.mp hlen)
    subst hnil
    simp [ctLoop, bucketsPresent]
  | succ n ih =>
    intro cs hlen hch
    cases cs with
    | nil => simp [ctLoop, bucketsPresent]
    | cons c cs0 =>
      have hkch : List.Chain'
          (fun a b : Candle =>
            bucketStartOf tms a.timestamp ≤ bucketStartOf tms b.timestamp) (c :: cs0) :=
        hch.imp fun a b hab => bucketStartOf_mono tms hpos _ _ hab
      have hPc : (fun x : Candle =>
          decide (bucketStartOf tms x.timestamp = bucketStartOf tms c.timestamp)) c = true := by
        simp
      have hrun_all : ∀ x ∈ (c :: cs0).takeWhile (fun x : Candle =>
            decide (bucketStartOf tms x.timestamp = bucketStartOf tms c.timestamp)),
          bucketStartOf tms x.timestamp = bucketStartOf tms c.timestamp := by
        intro x hx
        simpa using List.mem_takeWhile_imp hx
      have hk_le : ∀ x ∈ c :: cs0,
          bucketStartOf tms c.timestamp ≤ bucketStartOf tms x.timestamp := by
        intro x hx
        rcases List.mem_cons.mp hx with rfl | hx'
        · exact le_refl _
        · exact chain'_le_head _ c cs0 hkch x hx'
      have hrest_ne : ∀ y ∈ (c :: cs0).dropWhile (fun x : Candle =>
            decide (bucketStartOf tms x.timestamp = bucketStartOf tms c.timestamp)),
          bucketStartOf tms y.timestamp ≠ bucketStartOf tms c.timestamp :=
        dropWhile_key_ne _ _ _ hkch hk_le
      have hrun_cons : (c :: cs0).takeWhile (fun x : Candle =>
            decide (bucketStartOf tms x.timestamp = bucketStartOf tms c.timestamp))
          = c :: cs0.takeWhile (fun x : Candle =>
            decide (bucketStartOf tms x.timestamp = bucketStartOf tms c.timestamp)) :=
        List.takeWhile_cons_of_pos hPc
      have hdrop : (c :: cs0).dropWhile (fun x : Candle =>
            decide (bucketStartOf tms x.timestamp = bucketStartOf tms c.timestamp))
          = cs0.dropWhile (fun x : Candle =>
            decide (bucketStartOf tms x.timestamp = bucketStartOf tms c.timestamp)) :=
        List.dropWhile_cons_of_pos hPc
      have hsplit0 : cs0.takeWhile (fun x : Candle =>
            decide (bucketStartOf tms x.timestamp = bucketStartOf tms c.timestamp))
          ++ cs0.dropWhile (fun x : Candle =>
            decide (bucketStartOf tms x.timestamp = bucketStartOf tms c.timestamp)) = cs0 :=
        List.takeWhile_append_dropWhile _ _
      have hlen_rest : (cs0.dropWhile (fun x : Candle =>
            decide (bucketStartOf tms x.timestamp = bucketStartOf tms c.timestamp))).length
          ≤ n := by
        have h1 := (List.dropWhile_sublist (l := cs0) (fun x : Candle =>
          decide (bucketStartOf tms x.timestamp = bucketStartOf tms c.timestamp))).length_le
        have h2 : cs0.length + 1 ≤ n + 1 := by simpa using hlen
        omega
      have hch_rest : List.Chain' (fun a b : Candle => a.timestamp ≤ b.timestamp)
          (cs0.dropWhile (fun x : Candle =>
            decide (bucketStartOf tms x.timestamp = bucketStartOf tms c.timestamp))) := by
        apply hch.suffix
        rw [← hdrop]
        exact List.dropWhile_suffix _
      have hspec_rest := ih _ hlen_rest hch_rest
      have hhead_cond : ∀ y ∈ (cs0.dropWhile (fun x : Candle =>
            decide (bucketStartOf tms x.timestamp = bucketStartOf tms c.timestamp))).head?,
          bucketStartOf tms y.timestamp ≠ bucketStartOf tms c.timestamp := by
        intro y hy
        apply hrest_ne
        rw [hdrop]
        exact List.mem_of_mem_head? hy
      have hlhs : ctLoop tms none [] (c :: cs0)
          = mkBucketCandle (bucketStartOf tms c.timestamp)
              (c :: cs0.takeWhile (fun x : Candle =>
                decide (bucketStartOf tms x.timestamp = bucketStartOf tms c.timestamp)))
            :: ctLoop tms none [] (cs0.dropWhile (fun x : Candle =>
                decide (bucketStartOf tms x.timestamp = bucketStartOf tms c.timestamp))) := by
        rw [ctLoop_restart]
        calc ctLoop tms (some (bucketStartOf tms c.timestamp)) [c] cs0
            = ctLoop tms (some (bucketStartOf tms c.timestamp)) [c]
                (cs0.takeWhile (fun x : Candle =>
                  decide (bucketStartOf tms x.timestamp = bucketStartOf tms c.timestamp))
                ++ cs0.dropWhile (fun x : Candle =>
                  decide (bucketStartOf tms x.timestamp = bucketStartOf tms c.timestamp))) := by
              rw [hsplit0]
          _ = mkBucketCandle (bucketStartOf tms c.timestamp)
                ([c] ++ cs0.takeWhile (fun x : Candle =>
                  decide (bucketStartOf tms x.timestamp = bucketStartOf tms c.timestamp)))
              :: ctLoop tms none [] (cs0.dropWhile (fun x : Candle =>
                  decide (bucketStartOf tms x.timestamp = bucketStartOf tms c.timestamp))) := by
              apply ctLoop_run
              · intro x hx
                apply hrun_all
                rw [hrun_cons]
                exact List.mem_cons_of_mem _ hx
              · simp
              · exact hhead_cond
          _ = mkBucketCandle (bucketStartOf tms c.timestamp)
                (c :: cs0.takeWhile (fun x : Candle =>
                  decide (bucketStartOf tms x.timestamp = bucketStartOf tms c.timestamp)))
              :: ctLoop tms none [] (cs0.dropWhile (fun x : Candle =>
                  decide (bucketStartOf tms x.timestamp = bucketStartOf tms c.timestamp))) := rfl
      have hbp : bucketsPresent tms (c :: cs0)
          = bucketStartOf tms c.timestamp
            :: ((cs0.dropWhile (fun x : Candle =>
                decide (bucketStartOf tms x.timestamp = bucketStartOf tms c.timestamp))).map
              (fun x => bucketStartOf tms x.timestamp)).dedup := by
        rw [bucketsPresent]
        have hsplit1 : c :: cs0
            = (c :: cs0).takeWhile (fun x : Candle =>
                decide (bucketStartOf tms x.timestamp = bucketStartOf tms c.timestamp))
              ++ (c :: cs0).dropWhile (fun x : Candle =>
                decide (bucketStartOf tms x.timestamp = bucketStartOf tms c.timestamp)) :=
          (List.takeWhile_append_dropWhile _ _).symm
        rw [hsplit1, List.map_append]
        rw [dedup_const_append (bucketStartOf tms c.timestamp)]
        · rw [hdrop]
        · intro a ha
          obtain ⟨x, hx, rfl⟩ := List.mem_map.mp ha
          exact hrun_all x hx
        · rw [hrun_cons]
          simp
        · intro hmem
          obtain ⟨x, hx, hxx⟩ := List.mem_map.mp hmem
          exact hrest_ne x hx hxx
      have hfilter_k : (c :: cs0).filter (fun x : Candle =>
            decide (bucketStartOf tms x.timestamp = bucketStartOf tms c.timestamp))
          = c :: cs0.takeWhile (fun x : Candle =>
            decide (bucketStartOf tms x.timestamp = bucketStartOf tms c.timestamp)) := by
        have hsplit1 : c :: cs0
            = (c :: cs0).takeWhile (fun x : Candle =>
                decide (bucketStartOf tms x.timestamp = bucketStartOf tms c.timestamp))
              ++ (c :: cs0).dropWhile (fun x : Candle =>
                decide (bucketStartOf tms x.timestamp = bucketStartOf tms c.timestamp)) :=
          (List.takeWhile_append_dropWhile _ _).symm
        conv_lhs => rw [hsplit1]
        rw [List.filter_append]
        rw [List.filter_eq_self.mpr (fun a ha => by simp [hrun_all a ha])]
        rw [List.filter_eq_nil_iff.mpr (fun a ha => by simp [hrest_ne a ha])]
        rw [List.append_nil, hrun_cons]
      have hhead : specBucketCandle tms (c :: cs0) (bucketStartOf tms c.timestamp)
          = mkBucketCandle (bucketStartOf tms c.timestamp)
              (c :: cs0.takeWhile (fun x : Candle =>
                decide (bucketStartOf tms x.timestamp = bucketStartOf tms c.timestamp))) := by
        rw [specBucketCandle, hfilter_k]
        rfl
      have htail : ∀ b ∈ ((cs0.dropWhile (fun x : Candle =>
            decide (bucketStartOf tms x.timestamp = bucketStartOf tms c.timestamp))).map
              (fun x => bucketStartOf tms x.timestamp)).dedup,
          specBucketCandle tms (c :: cs0) b
            = specBucketCandle tms (cs0.dropWhile (fun x : Candle =>
                decide (bucketStartOf tms x.timestamp = bucketStartOf tms c.timestamp))) b := by
        intro b hb
        have hbmem := List.mem_dedup.mp hb
        obtain ⟨y, hy, rfl⟩ := List.mem_map.mp hbmem
        have hbk : bucketStartOf tms y.timestamp ≠ bucketStartOf tms c.timestamp := by
          apply hrest_ne
          rw [hdrop]
          exact hy
        have hfil : (c :: cs0).filter (fun x : Candle =>
              decide (bucketStartOf tms x.timestamp = bucketStartOf tms y.timestamp))
            = (cs0.dropWhile (fun x : Candle =>
                decide (bucketStartOf tms x.timestamp = bucketStartOf tms c.timestamp))).filter
              (fun x : Candle =>
                decide (bucketStartOf tms x.timestamp = bucketStartOf tms y.timestamp)) := by
          have hsplit1 : c :: cs0
              = (c :: cs0).takeWhile (fun x : Candle =>
                  decide (bucketStartOf tms x.timestamp = bucketStartOf tms c.timestamp))
                ++ (c :: cs0).dropWhile (fun x : Candle =>
                  decide (bucketStartOf tms x.timestamp = bucketStartOf tms c.timestamp)) :=
            (List.takeWhile_append_dropWhile _ _).symm
          conv_lhs => rw [hsplit1]
          rw [List.filter_append]
          rw [List.filter_eq_nil_iff.mpr (fun a ha => by
            have hak := hrun_all a ha
            simp only [decide_eq_true_eq]
            rw [hak]
            exact fun hcon => hbk hcon.symm)]
          rw [List.nil_append, hdrop]
        rw [specBucketCandle, specBucketCandle, hfil]
      rw [hlhs, hspec_rest, hbp, List.map_cons]
      congr 1
      · exact hhead.symm
      · rw [bucketsPresent]
        exact (List.map_congr_left htail).symm

theorem intervalMinutes_pos (tf : String) (m : ℤ) (hm : intervalMinutes tf = some m) :
    0 < m := by
  unfold intervalMinutes at hm
  split at hm <;> first
    | (injection hm with h; omega)
    | (injection hm)

/-- C8: on a candle sequence with non-decreasing timestamps,
`convertTimeframe` emits exactly the per-bucket aggregation described by
the spec — one candle per distinct epoch-aligned bucket present in the
input, with timestamp the bucket start, open/close the first/last input
candle of the bucket, high/low the extrema and volume the sum
(`convertTimeframeSpec`) — and passes the input through unchanged for
"1m" or an unrecognized timeframe. -/
theorem convertTimeframe_matches_spec (candles : List Candle) (tf : String)
    (hsorted : List.Chain' (fun a b : Candle => a.timestamp ≤ b.timestamp) candles) :
    convertTimeframe candles tf = convertTimeframeSpec candles tf
    ∧ (tf = "1m" ∨ intervalMinutes tf = none → convertTimeframe candles tf = candles) := by
  constructor
  · rw [convertTimeframe, convertTimeframeSpec]
    by_cases h1 : tf = "1m"
    · simp [h1]
    · simp only [h1, if_false]
      cases hm : intervalMinutes tf with
      | none => rfl
      | some m =>
        have hmpos : 0 < m := intervalMinutes_pos tf m hm
        exact ctLoop_eq_spec (m * 60 * 1000) (by omega) candles.length candles le_rfl hsorted
  · intro h
    rcases h with h | h
    · simp [convertTimeframe, h]
    · rw [convertTimeframe]
      by_cases h1 : tf = "1m"
      · simp [h1]
      · simp [h1, h]

/-- Witness for C8 at a concrete sorted two-candle list and timeframe
"5m". -/
theorem convertTimeframe_matches_spec_witness :
    convertTimeframe
        [{ timestamp := 0, open_ := 1, high := 2, low := 0, close := 1, volume := 3 },
         { timestamp := 60000, open_ := 1, high := 3, low := 1, close := 2, volume := 4 }] "5m"
      = convertTimeframeSpec
        [{ timestamp := 0, open_ := 1, high := 2, low := 0, close := 1, volume := 3 },
         { timestamp := 60000, open_ := 1, high := 3, low := 1, close := 2, volume := 4 }] "5m" :=
  (convertTimeframe_matches_spec
    [{ timestamp := 0, open_ := 1, high := 2, low := 0, close := 1, volume := 3 },
     { timestamp := 60000, open_ := 1, high := 3, low := 1, close := 2, volume := 4 }] "5m"
    (by simp)).1
